import Mathlib

/-!
# Verification of the `memory-manager` allocation substrate

A shallow embedding of the Rust crate `memory-manager` (platform virtual-memory
primitives, memory chunks, mega-block lists, block descriptors, and the
self-describing object format), together with theorems settling the frozen
claims about it.

Conventions of the embedding:
* `usize` is modelled as `Nat`; wrapping arithmetic is made explicit with
  `% USIZE_MOD` where the source relies on it.
* `c_int` (POSIX `errno`) is modelled as `Int`; the `e as u32` cast is
  modelled as `(e % 2^32).toNat`.
* OS nondeterminism (the address chosen by `mmap`, the result of `sysconf`)
  is passed in as an explicit parameter.
* Rust panics (failed `assert!`/`unwrap`) are modelled as `Option.none` or a
  dedicated constructor of the result type.
* The live OS address space is modelled as a `Finset Nat` of mapped byte
  addresses; `mmap`/`munmap` add and remove half-open intervals.
-/

namespace MemoryManager

/-- Number of values of the 64-bit `usize` type; used to make the
release-mode wrapping subtraction of Rust explicit. -/
def USIZE_MOD : Nat := 2 ^ 64

/-- Machine word size in bytes on the modelled 64-bit target
(`core::mem::size_of::<usize>()`). -/
def wordSize : Nat := 8

/-! ## Error taxonomy (`src/primitives.rs`, `enum MMapError`) -/

/-- The shared error taxonomy of `src/primitives.rs`. `UnknownError` carries
the raw native error code (a `u32`). -/
inductive MMapError where
  | InvalidArguments
  | TryAgain
  | NoMemory
  | LengthOverflow
  | UnknownError (code : Nat)
  | NoError
deriving DecidableEq, Repr

/-! ### POSIX backend error translation (`src/primitives/unix.rs`) -/

/-- Linux `errno` value for `EINVAL`. -/
def EINVAL : Int := 22
/-- Linux `errno` value for `EAGAIN`. -/
def EAGAIN : Int := 11
/-- Linux `errno` value for `ENOMEM`. -/
def ENOMEM : Int := 12
/-- Linux `errno` value for `EOVERFLOW`. -/
def EOVERFLOW : Int := 75

/-- Embedding of `MMapError::from_errno` from `src/primitives/unix.rs`:
match on `EINVAL`/`EAGAIN`/`ENOMEM`/`EOVERFLOW`/`0`, with everything else
falling through to `UnknownError(e as u32)`. -/
def MMapError.from_errno (e : Int) : MMapError :=
  if e = EINVAL then .InvalidArguments
  else if e = EAGAIN then .TryAgain
  else if e = ENOMEM then .NoMemory
  else if e = EOVERFLOW then .LengthOverflow
  else if e = 0 then .NoError
  else .UnknownError ((e % (2 ^ 32 : Int)).toNat)

/-! ### Windows backend error translation (`src/primitives/windows.rs`) -/

/-- Windows error code `ERROR_INVALID_PARAMETER`. -/
def ERROR_INVALID_PARAMETER : Nat := 87
/-- Windows error code `ERROR_SUCCESS`. -/
def ERROR_SUCCESS : Nat := 0

/-- Embedding of `MMapError::from_errno` from `src/primitives/windows.rs`:
match on `ERROR_INVALID_PARAMETER` and `ERROR_SUCCESS` (the argument is a
`DWORD`, i.e. an unsigned 32-bit code), everything else is `UnknownError(e)`. -/
def MMapError.from_errno_windows (e : Nat) : MMapError :=
  if e = ERROR_INVALID_PARAMETER then .InvalidArguments
  else if e = ERROR_SUCCESS then .NoError
  else .UnknownError e

/-! ## `is_power_of_2` (`src/primitives/unix.rs`) -/

/-- Embedding of `fn is_power_of_2(x: usize) -> bool { (x - 1) & x == 0 }`
under release-build (wrapping) semantics: `x - 1` wraps modulo `2^64`. -/
def is_power_of_2 (x : Nat) : Bool :=
  (((x + (USIZE_MOD - 1)) % USIZE_MOD) &&& x) == 0

/-- Embedding of the same function under debug-build semantics, where the
subtraction `x - 1` panics on overflow: `none` models the panic at `x = 0`. -/
def is_power_of_2_checked (x : Nat) : Option Bool :=
  if x = 0 then none else some (((x - 1) &&& x) == 0)

/-! ## Protection flags -/

/-- The `BitFlags<Protection>` set of `src/primitives/unix.rs` as three
booleans (Read/Write/Exec). -/
structure Protection where
  read : Bool
  write : Bool
  exec : Bool
deriving DecidableEq, Repr

/-! ## `allocate_chunk` (`src/primitives/unix.rs`)

`allocate_chunk(size, protection)` checks `size == 0` before any OS call,
then calls `mmap`.  The OS outcome is passed in as `osAddr` (`none` models
`MAP_FAILED`, in which case `errno` holds `osErrno`).  The second component
of the result records whether `mmap` was invoked. -/

/-- Embedding of `allocate_chunk` from `src/primitives/unix.rs`. Returns the
call result and a flag telling whether the `mmap` system call was performed. -/
def allocate_chunk (size : Nat) (_protection : Protection)
    (osAddr : Option Nat) (osErrno : Int) : Except MMapError Nat × Bool :=
  if size = 0 then (.error .InvalidArguments, false)
  else
    match osAddr with
    | none => (.error (MMapError.from_errno osErrno), true)
    | some addr => (.ok addr, true)

/-! ## `get_page_size` (`src/primitives/unix.rs`)

The POSIX backend keeps `static mut PAGE_SIZE: Option<NonZeroUsize>`.  The
embedding threads that cache explicitly: a call takes the current cache and
the OS answer (`os` is the `sysconf(_SC_PAGESIZE)` return value, `osErrno`
the `errno` it leaves behind on failure) and returns the new cache together
with the call result. -/

/-- Embedding of `get_page_size` from `src/primitives/unix.rs`: return the
cached value if present; otherwise query the OS, caching the value only on
success (`sysconf` result `>= 0`). -/
def get_page_size (cache : Option Nat) (os : Int) (osErrno : Int) :
    Option Nat × Except MMapError Nat :=
  match cache with
  | some res => (some res, .ok res)
  | none =>
    if os < 0 then (none, .error (MMapError.from_errno osErrno))
    else (some os.toNat, .ok os.toNat)

/-- Run a sequence of `get_page_size` calls within one process, threading the
cache; each list entry supplies the OS answer and errno for that call. -/
def runGetPageSize (cache : Option Nat) :
    List (Int × Int) → List (Except MMapError Nat)
  | [] => []
  | (os, e) :: rest =>
    let r := get_page_size cache os e
    r.2 :: runGetPageSize r.1 rest

/-! ## Windows `get_page_size` (`src/primitives/windows.rs`)

The Windows backend caches a whole `SYSTEM_INFO` record; `GetSystemInfo`
cannot fail, so `get_page_size` always succeeds. -/

/-- The two `SYSTEM_INFO` fields the crate reads. -/
structure SysInfo where
  dwPageSize : Nat
  dwAllocationGranularity : Nat
deriving DecidableEq, Repr

/-- Embedding of `get_sys_info` from `src/primitives/windows.rs`: return the
cached record if present, otherwise store and return the OS-provided one. -/
def get_sys_info (cache : Option SysInfo) (os : SysInfo) :
    Option SysInfo × SysInfo :=
  match cache with
  | some res => (some res, res)
  | none => (some os, os)

/-- Embedding of `get_page_size` from `src/primitives/windows.rs`. -/
def get_page_size_windows (cache : Option SysInfo) (os : SysInfo) :
    Option SysInfo × Except MMapError Nat :=
  let r := get_sys_info cache os
  (r.1, .ok r.2.dwPageSize)

/-! ## Address-space model for `aligned_allocate_chunk` (`src/primitives/unix.rs`)

The live address space is the set of currently mapped byte addresses.
`mmap` adds the half-open interval it returns; `munmap` removes one.  The
address `res` chosen by the OS for the over-allocation is a parameter; the
embedding follows the success path of the source (every syscall succeeds). -/

/-- The set of byte addresses currently backed by a live mapping. -/
structure MemState where
  mapped : Finset Nat
deriving DecidableEq

/-- The empty address space. -/
def MemState.empty : MemState := ⟨∅⟩

/-- Effect of a successful `mmap` returning address `addr` for `size` bytes. -/
def MemState.mmap (st : MemState) (addr size : Nat) : MemState :=
  ⟨st.mapped ∪ Finset.Ico addr (addr + size)⟩

/-- Effect of a successful `munmap(addr, size)`. -/
def MemState.munmap (st : MemState) (addr size : Nat) : MemState :=
  ⟨st.mapped \ Finset.Ico addr (addr + size)⟩

/-- Embedding of `aligned_allocate_chunk` from `src/primitives/unix.rs`
(success path): over-allocate `size + alignment` at the OS-chosen address
`res`, compute `back_padding = res & (alignment - 1)` and
`front_padding = alignment - back_padding`, `munmap` `front_padding` bytes at
`res`, and — exactly as in the source — when `back_padding > 0` `munmap`
`back_padding` bytes at the *returned* address `start_addr`.  Returns the
final address space and the returned address. -/
def aligned_allocate_chunk (st : MemState) (res alignment size : Nat) :
    MemState × Nat :=
  let alignment_mask := alignment - 1
  let st1 := st.mmap res (size + alignment)
  let back_padding := res &&& alignment_mask
  let front_padding := alignment - back_padding
  let st2 := st1.munmap res front_padding
  let start_addr := res + front_padding
  let st3 := if back_padding > 0 then st2.munmap start_addr back_padding else st2
  (st3, start_addr)

/-! ## Objects (`src/object.rs`) and blocks (`src/block.rs`)

Memory holding objects is modelled as a word map: `mem a` is the 8-byte word
stored at byte address `a` (only word-aligned reads occur).  An
`ObjectDescriptor` occupies two consecutive words at its address. -/

/-- The heap the object layer reads from: `mem a` is the machine word stored
at byte address `a`. -/
structure Heap where
  mem : Nat → Nat

/-- `ObjectDescriptor` from `src/object.rs`: two word-sized counts. -/
structure ObjectDescriptor where
  unpacked_field_count : Nat
  pointer_count : Nat
deriving DecidableEq, Repr

/-- `ObjectDescriptor::total_size`: `1 + unpacked_field_count + pointer_count`
machine words. -/
def ObjectDescriptor.total_size (d : ObjectDescriptor) : Nat :=
  1 + d.unpacked_field_count + d.pointer_count

/-- Read the `ObjectDescriptor` record stored at address `d` (its two `usize`
fields occupy the words at `d` and `d + wordSize`). -/
def Heap.readDescriptor (h : Heap) (d : Nat) : ObjectDescriptor :=
  ⟨h.mem d, h.mem (d + wordSize)⟩

/-- The borrowed view `Object` from `src/object.rs`: the address of the
descriptor-pointer word, the descriptor address read from it, and the extents
of the unpacked-field and pointer-field slices. -/
structure Object where
  start : Nat
  descriptor : Nat
  unpacked_start : Nat
  unpacked_count : Nat
  pointers_start : Nat
  pointers_count : Nat
deriving DecidableEq, Repr

/-- Embedding of `Object::from(address)`: `consume_as_ref` /
`consume_as_slice` assert word alignment of the running address (all three
asserts are equivalent to `a % wordSize = 0`); `none` models the panic of a
failed alignment assertion. -/
def Object.fromAddress (h : Heap) (a : Nat) : Option Object :=
  if a % wordSize = 0 then
    let d := h.mem a
    let u := (h.readDescriptor d).unpacked_field_count
    let p := (h.readDescriptor d).pointer_count
    some ⟨a, d, a + wordSize, u, a + wordSize + wordSize * u, p⟩
  else none

/-- `Object::start_address`: the address where the descriptor pointer lives. -/
def Object.start_address (o : Object) : Nat := o.start

/-- `Object::total_size`: chase `self.descriptor` (a reference to the
descriptor-pointer word at `o.start`) and take the `total_size` of that
descriptor. -/
def Object.total_size (h : Heap) (o : Object) : Nat :=
  (h.readDescriptor (h.mem o.start)).total_size

/-- `BlockDescriptor` from `src/block.rs`: the block start and the
high-water `free` pointer. -/
structure BlockDescriptor where
  start : Nat
  free : Nat
deriving DecidableEq, Repr

/-- `BlockDescriptor::new(start)`: a fresh block with `free = start`. -/
def BlockDescriptor.new (start : Nat) : BlockDescriptor :=
  ⟨start, start⟩

/-- `ObjectIterator` from `src/block.rs`: the eagerly reconstructed current
object and the `free` boundary. -/
structure ObjectIterator where
  current : Object
  boundary : Nat
deriving DecidableEq, Repr

/-- Result of one `ObjectIterator::next` call. -/
inductive ObjectStep where
  /-- `next` returned `None`. -/
  | finished
  /-- `next` panicked (alignment assertion in `Object::from`). -/
  | aborted
  /-- `next` returned `Some` of the object, leaving the iterator state. -/
  | yielded (o : Object) (it : ObjectIterator)
deriving DecidableEq, Repr

/-- Embedding of `ObjectIterator::next` from `src/block.rs`:
`next_addr = this_addr.offset(this_size)` — `Address::offset` advances in
*bytes* (`*mut u8`), so the computed offset is `total_size()` bytes; if
`next_addr >= boundary` return `None`; otherwise reconstruct the object at
`next_addr`, swap it with `current`, and yield the previous `current`. -/
def ObjectIterator.step (h : Heap) (it : ObjectIterator) : ObjectStep :=
  let this_addr := it.current.start_address
  let this_size := it.current.total_size h
  let next_addr := this_addr + this_size
  if it.boundary ≤ next_addr then .finished
  else
    match Object.fromAddress h next_addr with
    | none => .aborted
    | some res => .yielded it.current ⟨res, it.boundary⟩

/-- Outcome of draining an `ObjectIterator`. -/
inductive DrainResult where
  /-- The step budget ran out before the iterator finished. -/
  | more
  /-- A `next` call panicked after yielding the listed objects. -/
  | aborted (objs : List Object)
  /-- The iterator finished, having yielded exactly the listed objects. -/
  | complete (objs : List Object)
deriving DecidableEq, Repr

/-- Drain the iterator by repeated `next` calls, collecting the yielded
objects (with a step budget to keep the recursion structural). -/
def ObjectIterator.drain (h : Heap) : Nat → ObjectIterator → DrainResult
  | 0, _ => .more
  | fuel + 1, it =>
    match it.step h with
    | .finished => .complete []
    | .aborted => .aborted []
    | .yielded o it2 =>
      match ObjectIterator.drain h fuel it2 with
      | .more => .more
      | .aborted objs => .aborted (o :: objs)
      | .complete objs => .complete (o :: objs)

/-- Embedding of `BlockDescriptor::objects`: eagerly reconstruct the object
at `start` (this can panic — `none` — on a misaligned `start`) and pair it
with the `free` boundary. -/
def BlockDescriptor.objects (h : Heap) (b : BlockDescriptor) :
    Option ObjectIterator :=
  match Object.fromAddress h b.start with
  | none => none
  | some o => some ⟨o, b.free⟩

/-- The full object walk of a block: build the iterator with `objects()` and
drain it. `none` models a panic already in `objects()`. -/
def BlockDescriptor.objectsDrain (h : Heap) (fuel : Nat) (b : BlockDescriptor) :
    Option DrainResult :=
  match b.objects h with
  | none => none
  | some it => some (it.drain h fuel)

/-! ## Mega-block lists (`src/allocate.rs`)

`MegaBlockList` is a nullable raw pointer to a `MegaBlock`; the `next`
field of each node is again a `MegaBlockList`.  Nodes are modelled by their
addresses; address `0` models the null pointer.  `nodeNext a` is the value of
the `next.0` pointer of the node at address `a`. -/

/-- The node store backing a mega-block list: `next a` is the `next` pointer
of the `MegaBlock` at address `a` (`0` = null). -/
structure NodeMem where
  next : Nat → Nat

/-- `MegaBlockList`: a nullable head pointer. -/
structure MegaBlockList where
  head : Nat
deriving DecidableEq, Repr

/-- `MegaBlockList::new()`: the null list. -/
def MegaBlockList.new : MegaBlockList := ⟨0⟩

/-- `MegaBlockList::head()`: `Some` of the head node unless null. -/
def MegaBlockList.headNode (l : MegaBlockList) : Option Nat :=
  if l.head = 0 then none else some l.head

/-- `MegaBlockList::iter()`: the iterator state is `self.0.as_ref()` —
`Some` of the head node, or `none` for the empty list. -/
def MegaBlockList.iter (l : MegaBlockList) : Option Nat :=
  if l.head = 0 then none else some l.head

/-- Embedding of `MegaBlockIterator::next` from `src/allocate.rs`:

`self.0.as_mut().and_then(|me| Some(mem::replace(me, me.next.0.as_ref()?)))`

If the state is `None`, return `None`.  Otherwise, when the `next` pointer
of the current node is null the `?` makes the closure return `None` *without
touching the state or yielding anything*; when it is non-null the state
advances to it and the previous node is yielded.  Returns
`(new state, yielded node)`. -/
def MegaBlockIterator.next (m : NodeMem) (st : Option Nat) :
    Option Nat × Option Nat :=
  match st with
  | none => (none, none)
  | some a =>
    let nxt := m.next a
    if nxt = 0 then (some a, none)
    else (some nxt, some a)

/-- Drain the mega-block iterator: repeated `next` calls until one returns
`None` (or the budget runs out), collecting the yielded node addresses. -/
def MegaBlockIterator.drain (m : NodeMem) : Nat → Option Nat → List Nat
  | 0, _ => []
  | fuel + 1, st =>
    match MegaBlockIterator.next m st with
    | (st2, some a) => a :: MegaBlockIterator.drain m fuel st2
    | (_, none) => []

/-! ## `MemoryChunk` slice views (`src/allocate.rs`, `src/memory/allocate.rs`)

`AsRef<[T]>::as_ref` builds `slice_from_raw_parts(self.data, self.size)` —
the `size` field (in bytes) is passed directly as the *element* count — and
`as_ref().unwrap()` panics only on a null pointer.  The element type enters
only through its size (and, in the `src/memory` variant, its alignment);
both are passed as explicit parameters, which the definitions ignore exactly
where the source ignores them. -/

/-- `MemoryChunk`: base pointer and byte size of one owned mapping. -/
structure MemoryChunk where
  data : Nat
  size : Nat
deriving DecidableEq, Repr

/-- A borrowed Rust slice `&[T]`: base pointer and length in elements. -/
structure Slice where
  ptr : Nat
  len : Nat
deriving DecidableEq, Repr

/-- The number of bytes a slice of `len` elements of size `elemSize` views. -/
def Slice.byteSpan (elemSize : Nat) (s : Slice) : Nat :=
  s.len * elemSize

/-- Embedding of `<MemoryChunk as AsRef<[T]>>::as_ref` from
`src/allocate.rs`: `slice_from_raw_parts(self.data as _, self.size)`
unwrapped — `none` models the `unwrap` panic on a null `data`; the element
size plays no role. -/
def MemoryChunk.asSlice (_elemSize : Nat) (c : MemoryChunk) : Option Slice :=
  if c.data = 0 then none else some ⟨c.data, c.size⟩

/-- Embedding of `<MemoryChunk as AsMut<[T]>>::as_mut` from
`src/allocate.rs`: identical construction via `slice_from_raw_parts_mut`. -/
def MemoryChunk.asSliceMut (_elemSize : Nat) (c : MemoryChunk) : Option Slice :=
  if c.data = 0 then none else some ⟨c.data, c.size⟩

/-- Embedding of the `src/memory/allocate.rs` variant of `as_ref`, which
first passes `data` through `assert_aligned::<T>` — `none` also models the
panic of that alignment assertion. -/
def MemoryChunk.asSliceChecked (_elemSize elemAlign : Nat) (c : MemoryChunk) :
    Option Slice :=
  if c.data % elemAlign = 0 then
    if c.data = 0 then none else some ⟨c.data, c.size⟩
  else none

/-! ## Concrete stores used to evaluate the embedding -/

/-- Decidable equality for `Except` results, so concrete runs can be settled
by `decide`. -/
instance {ε α : Type} [DecidableEq ε] [DecidableEq α] : DecidableEq (Except ε α)
  | .ok a, .ok b => decidable_of_iff (a = b) (by simp)
  | .ok _, .error _ => .isFalse (by simp)
  | .error _, .ok _ => .isFalse (by simp)
  | .error a, .error b => decidable_of_iff (a = b) (by simp)

/-- Node store with no nodes (every `next` read would give null). -/
def nodeMemNone : NodeMem := ⟨fun _ => 0⟩

/-- Node store for a single mega-block node at address `8` whose `next`
pointer is null. -/
def nodeMemOne : NodeMem := ⟨fun _ => 0⟩

/-- Node store for a two-node chain: the node at `8` links to the node at
`16`, whose `next` pointer is null. -/
def nodeMemTwo : NodeMem := ⟨fun a => if a = 8 then 16 else 0⟩

/-- Heap for the two-object block scenario: at word 0 (byte 0) an object
with descriptor at 512 (`unpacked_field_count = 2`, `pointer_count = 1`,
4 words total), followed at word 4 (byte 32) by an object with descriptor at
544 (`unpacked_field_count = 0`, `pointer_count = 3`, 4 words total); `free`
for the enclosing block is byte 64. -/
def heapTwoObjects : Heap :=
  ⟨fun a =>
    if a = 0 then 512 else if a = 32 then 544
    else if a = 512 then 2 else if a = 520 then 1
    else if a = 544 then 0 else if a = 552 then 3
    else 0⟩

/-- An all-zero heap, used to witness claims about fresh blocks. -/
def heapZero : Heap := ⟨fun _ => 0⟩

/-!
## Theorems settling the claims
-/

/-- C1: the claim requires that after a successful
`aligned_allocate(alignment, size, protection)` exactly one live mapping
remains, covering exactly `[a, a + size)`, with the front padding and any
back remainder of the over-allocation fully released.  Evaluating the POSIX
backend at a legal input (alignment `16`, a power of two; size `16`, a
multiple of the alignment) where `mmap` places the over-allocation at the
misaligned address `8`: the returned address `16` is aligned, but the code
releases `back_padding` bytes at the *returned* address instead of at the
tail of the over-allocation, so the live mapping left behind is
`[24, 40)` — the first 8 bytes of the returned region are unmapped and the
8-byte tail `[32, 40)` is leaked — not the required `[16, 32)`. -/
theorem C1_aligned_allocate_eval :
    is_power_of_2 16 = true ∧ (16 : Nat) % 16 = 0
    ∧ (aligned_allocate_chunk MemState.empty 8 16 16).2 = 16
    ∧ (aligned_allocate_chunk MemState.empty 8 16 16).2 % 16 = 0
    ∧ (aligned_allocate_chunk MemState.empty 8 16 16).1.mapped = Finset.Ico 24 40
    ∧ Finset.Ico (24 : Nat) 40 ≠ Finset.Ico 16 32 :=
  ⟨by decide, by decide, by decide, by decide, by decide, by decide⟩

/-- C2: the claim requires that a block holding two consecutive objects with
descriptors `{unpacked = 2, pointer = 1}` and `{unpacked = 0, pointer = 3}`
yields exactly those two objects, advancing by `total_size()` *words*.
Evaluating the code on exactly that block (`start = 0`, `free = 64`, word
size 8): `ObjectIterator::next` advances by `total_size()` *bytes*
(`Address::offset` works on `*mut u8`), so the first step computes address
`0 + 4 = 4`, which is not word-aligned, and `Object::from` panics in its
alignment assertion (`aborted`) after yielding zero objects — not two; the
boundary test `next_addr >= free` would moreover drop the final object even
with word-scaled offsets. -/
theorem C2_object_walk_eval :
    (heapTwoObjects.readDescriptor (heapTwoObjects.mem 0)).unpacked_field_count = 2
    ∧ (heapTwoObjects.readDescriptor (heapTwoObjects.mem 0)).pointer_count = 1
    ∧ (heapTwoObjects.readDescriptor (heapTwoObjects.mem 32)).unpacked_field_count = 0
    ∧ (heapTwoObjects.readDescriptor (heapTwoObjects.mem 32)).pointer_count = 3
    ∧ Object.total_size heapTwoObjects ⟨0, 512, 8, 2, 24, 1⟩ = 4
    ∧ BlockDescriptor.objectsDrain heapTwoObjects 10 ⟨0, 64⟩ = some (.aborted []) :=
  ⟨by decide, by decide, by decide, by decide, by decide, by decide⟩

/-- C3: for every block with `free == start` — in particular a fresh
`BlockDescriptor::new(start)` — `objects()` yields an empty sequence.  The
block invariant that a valid object sits at `start` requires `start` to be
word-aligned (`Object::from` asserts this), hence the alignment hypothesis.
The walk stops immediately because the computed next address
`start + total_size` is at least `start + 1 > free`. -/
theorem C3_empty_block_objects (h : Heap) (b : BlockDescriptor)
    (hfree : b.free = b.start) (halign : b.start % wordSize = 0)
    (fuel : Nat) (hfuel : 0 < fuel) :
    BlockDescriptor.objectsDrain h fuel b = some (.complete []) := by
  cases fuel with
  | zero => exact absurd hfuel (by simp)
  | succ k =>
    unfold BlockDescriptor.objectsDrain BlockDescriptor.objects Object.fromAddress
    simp only [halign, if_pos]
    unfold ObjectIterator.drain ObjectIterator.step
    simp only [Object.start_address, Object.total_size, ObjectDescriptor.total_size, hfree]
    have : b.start ≤ b.start + (1 + (h.readDescriptor (h.mem b.start)).unpacked_field_count
        + (h.readDescriptor (h.mem b.start)).pointer_count) := by omega
    simp [this]

/-- Witness for C3: a fresh block at address 0 over an all-zero heap yields
the empty sequence. -/
theorem C3_empty_block_objects_witness :
    BlockDescriptor.objectsDrain heapZero 1 (BlockDescriptor.new 0)
      = some (.complete []) :=
  C3_empty_block_objects heapZero (BlockDescriptor.new 0) rfl (by decide) 1 (by decide)

/-- C4: the claim requires `is_power_of_two` to hold on `{1, 2, 4, 256, 4096}`
and to fail on `{0, 3, 257, 6}`, in particular to fail (not succeed, not
abort) on `0`.  The code `(x - 1) & x == 0` agrees on every listed input
except `0`: under release (wrapping) semantics `is_power_of_2 0` evaluates to
`true`, and under debug semantics the subtraction `0 - 1` overflows and the
function panics (`none`) — in neither build does it return `false`. -/
theorem C4_is_power_of_2_eval :
    is_power_of_2 0 = true
    ∧ is_power_of_2_checked 0 = none
    ∧ (is_power_of_2 1 = true ∧ is_power_of_2 2 = true ∧ is_power_of_2 4 = true
        ∧ is_power_of_2 256 = true ∧ is_power_of_2 4096 = true)
    ∧ (is_power_of_2 3 = false ∧ is_power_of_2 257 = false ∧ is_power_of_2 6 = false) := by
  decide

/-- C5: on both backends the native invalid-argument code (`EINVAL`,
`ERROR_INVALID_PARAMETER`) maps to `InvalidArguments`, and every code with no
recognized mapping maps to `UnknownError` carrying that raw code — never to
`NoError` and never to `NoMemory`.  The recognized POSIX codes are
`EINVAL`/`EAGAIN`/`ENOMEM`/`EOVERFLOW`/`0`; the recognized Windows codes are
`ERROR_INVALID_PARAMETER`/`ERROR_SUCCESS`.  The bound `e < 2^31` is the
`c_int` domain, under which the `e as u32` cast preserves the raw code. -/
theorem C5_error_code_translation :
    MMapError.from_errno EINVAL = .InvalidArguments
    ∧ MMapError.from_errno_windows ERROR_INVALID_PARAMETER = .InvalidArguments
    ∧ (∀ e : Int, 0 ≤ e → e < 2 ^ 31 →
        e ≠ EINVAL → e ≠ EAGAIN → e ≠ ENOMEM → e ≠ EOVERFLOW → e ≠ 0 →
        MMapError.from_errno e = .UnknownError e.toNat
        ∧ MMapError.from_errno e ≠ .NoError
        ∧ MMapError.from_errno e ≠ .NoMemory)
    ∧ (∀ e : Nat, e ≠ ERROR_INVALID_PARAMETER → e ≠ ERROR_SUCCESS →
        MMapError.from_errno_windows e = .UnknownError e
        ∧ MMapError.from_errno_windows e ≠ .NoError
        ∧ MMapError.from_errno_windows e ≠ .NoMemory) := by
  refine ⟨by decide, by decide, ?_, ?_⟩
  · intro e h0 h31 h1 h2 h3 h4 h5
    have hmod : e % (2 ^ 32 : Int) = e := Int.emod_eq_of_lt h0 (by omega)
    unfold MMapError.from_errno
    rw [if_neg h1, if_neg h2, if_neg h3, if_neg h4, if_neg h5, hmod]
    refine ⟨rfl, by simp, by simp⟩
  · intro e h1 h2
    unfold MMapError.from_errno_windows
    rw [if_neg h1, if_neg h2]
    refine ⟨rfl, by simp, by simp⟩

/-- Witness for C5: the unmapped codes `9999` (POSIX) and `8888` (Windows)
translate to `UnknownError` carrying the raw code. -/
theorem C5_error_code_translation_witness :
    MMapError.from_errno 9999 = .UnknownError 9999
    ∧ MMapError.from_errno_windows 8888 = .UnknownError 8888 :=
  ⟨(C5_error_code_translation.2.2.1 9999 (by decide) (by decide) (by decide)
      (by decide) (by decide) (by decide) (by decide)).1,
   (C5_error_code_translation.2.2.2 8888 (by decide) (by decide)).1⟩

/-- C6: `allocate(size, protection)` fails with `InvalidArguments` whenever
`size == 0`, for every protection, and the `mmap` system call is not
performed (the invocation flag is `false`) — regardless of how the OS would
have answered. -/
theorem C6_allocate_zero_size (prot : Protection) (osAddr : Option Nat)
    (osErrno : Int) :
    allocate_chunk 0 prot osAddr osErrno = (.error .InvalidArguments, false) :=
  rfl

/-- Any sequence of calls started with the cache already holding `v` keeps
answering `.ok v`. -/
theorem runGetPageSize_cached (v : Nat) (calls : List (Int × Int)) :
    ∀ r ∈ runGetPageSize (some v) calls, r = .ok v := by
  induction calls with
  | nil => simp [runGetPageSize]
  | cons c rest ih =>
    obtain ⟨os, e⟩ := c
    simpa [runGetPageSize, get_page_size] using ih

/-- C7: within one process run every successful `get_page_size()` call
returns the identical value (first conjunct: any two `.ok` results of a call
sequence started with an empty cache agree, whatever the OS answers were);
a populated cache is returned as-is without re-querying (second conjunct);
a successful query populates the cache with the returned value (third
conjunct); a failed query reports the translated `errno` and leaves the
cache empty (fourth conjunct); and the Windows backend, whose
`GetSystemInfo` query cannot fail, likewise answers every later call with
the value cached by the first (fifth conjunct). -/
theorem C7_page_size_cache :
    (∀ calls : List (Int × Int), ∀ a b : Nat,
        .ok a ∈ runGetPageSize none calls →
        .ok b ∈ runGetPageSize none calls → a = b)
    ∧ (∀ (v : Nat) (os osErrno : Int),
        get_page_size (some v) os osErrno = (some v, .ok v))
    ∧ (∀ os osErrno : Int, ¬ os < 0 →
        get_page_size none os osErrno = (some os.toNat, .ok os.toNat))
    ∧ (∀ os osErrno : Int, os < 0 →
        get_page_size none os osErrno = (none, .error (MMapError.from_errno osErrno)))
    ∧ (∀ (cache : Option SysInfo) (os1 os2 : SysInfo),
        (get_page_size_windows ((get_page_size_windows cache os1).1) os2).2
          = (get_page_size_windows cache os1).2) := by
  refine ⟨?_, fun v os e => rfl, ?_, ?_, ?_⟩
  · intro calls
    induction calls with
    | nil => simp [runGetPageSize]
    | cons c rest ih =>
      obtain ⟨os, e⟩ := c
      intro a b ha hb
      by_cases hos : os < 0
      · simp only [runGetPageSize, get_page_size, if_pos hos, List.mem_cons] at ha hb
        rcases ha with ha | ha
        · exact absurd ha (by simp)
        · rcases hb with hb | hb
          · exact absurd hb (by simp)
          · exact ih a b ha hb
      · simp only [runGetPageSize, get_page_size, if_neg hos, List.mem_cons] at ha hb
        rcases ha with ha | ha
        · rcases hb with hb | hb
          · rw [Except.ok.injEq] at ha hb; omega
          · have := runGetPageSize_cached os.toNat rest _ hb
            rw [Except.ok.injEq] at ha this; omega
        · have ha2 := runGetPageSize_cached os.toNat rest _ ha
          rcases hb with hb | hb
          · rw [Except.ok.injEq] at ha2 hb; omega
          · have hb2 := runGetPageSize_cached os.toNat rest _ hb
            rw [Except.ok.injEq] at ha2 hb2; omega
  · intro os e h
    simp [get_page_size, if_neg h]
  · intro os e h
    simp [get_page_size, if_pos h]
  · intro cache os1 os2
    cases cache <;> rfl

/-- Witness for C7: in the run (failure with `ENOMEM`, success `4096`, then
an OS answer `7` that the cache shadows) both successful calls answer
`4096`; a lone successful call caches its value; a lone failed call leaves
the cache empty. -/
theorem C7_page_size_cache_witness :
    (4096 : Nat) = 4096
    ∧ get_page_size none 4096 0 = (some 4096, .ok 4096)
    ∧ get_page_size none (-1) 12 = (none, .error (MMapError.from_errno 12)) :=
  ⟨C7_page_size_cache.1 [(-1, 12), (4096, 0), (7, 7)] 4096 4096
      (by decide) (by decide),
   C7_page_size_cache.2.2.1 4096 0 (by decide),
   C7_page_size_cache.2.2.2.1 (-1) 12 (by decide)⟩

/-- C8: the claim requires iteration over a `MegaBlockList` to yield nothing
for an empty list and to yield exactly the `n` chain nodes for a chain of
`n` live nodes.  Evaluating `MegaBlockIterator` (the shared engine behind
`iter`, `iter_mut`, `chunks`, `chunks_mut`): the empty list indeed yields
nothing, but a one-node chain headed at address `8` also yields nothing
(claim: one node), and the two-node chain `8 → 16` yields only `[8]`
(claim: `[8, 16]`) — `next` returns `None` via the `?` on
`me.next.0.as_ref()` before ever yielding the node whose `next` pointer is
null, so the last node is always dropped. -/
theorem C8_mega_block_iteration_eval :
    MegaBlockIterator.drain nodeMemNone 10 MegaBlockList.new.iter = []
    ∧ MegaBlockIterator.drain nodeMemOne 10 (MegaBlockList.iter ⟨8⟩) = []
    ∧ MegaBlockIterator.drain nodeMemTwo 10 (MegaBlockList.iter ⟨8⟩) = [8]
    ∧ ([] : List Nat) ≠ [8] ∧ [8] ≠ [8, 16] :=
  ⟨by decide, by decide, by decide, by decide, by decide⟩

/-- C9: `ObjectDescriptor::total_size` equals
`1 + unpacked_field_count + pointer_count` words (first conjunct; being a
pure function of the two immutable counts, it is invariant for the
descriptor lifetime); `Object::total_size` is exactly the `total_size` of
the descriptor the object references through its descriptor-pointer word
(second and third conjuncts); and any two objects referencing the same
descriptor report the same size (fourth conjunct). -/
theorem C9_total_size (d : ObjectDescriptor) (h : Heap) (o o2 : Object) :
    d.total_size = 1 + d.unpacked_field_count + d.pointer_count
    ∧ o.total_size h = (h.readDescriptor (h.mem o.start)).total_size
    ∧ (∀ a obj, Object.fromAddress h a = some obj →
        obj.total_size h = (h.readDescriptor obj.descriptor).total_size)
    ∧ (h.mem o.start = h.mem o2.start → o.total_size h = o2.total_size h) := by
  refine ⟨rfl, rfl, ?_, ?_⟩
  · intro a obj hobj
    unfold Object.fromAddress at hobj
    by_cases ha : a % wordSize = 0
    · rw [if_pos ha] at hobj
      cases hobj
      rfl
    · rw [if_neg ha] at hobj
      cases hobj
  · intro hshare
    unfold Object.total_size
    rw [hshare]

/-- Witness for C9: over the two-object heap, the object reconstructed at
address 0 reports the size of its descriptor, and two views of the same
address report the same size. -/
theorem C9_total_size_witness :
    Object.total_size heapZero ⟨0, 0, 8, 0, 8, 0⟩
      = Object.total_size heapZero ⟨16, 0, 24, 0, 24, 0⟩ :=
  (C9_total_size ⟨0, 0⟩ heapZero ⟨0, 0, 8, 0, 8, 0⟩ ⟨16, 0, 24, 0, 24, 0⟩).2.2.2 rfl

/-- C10: for every element type, `as_ref`/`as_mut` on a `MemoryChunk` build
the slice from `(data, size)` with the byte-counted `size` field passed
directly as the element count, so the returned slice has length `size()`
elements and views `size() * size_of::<T>()` bytes (this also holds for the
`src/memory/allocate.rs` variant, which additionally asserts alignment);
consequently the viewed span coincides with the actual `size()`-byte extent
of the chunk exactly when the element size is one byte. -/
theorem C10_chunk_slice_length (c : MemoryChunk) (elemSize elemAlign : Nat)
    (hnull : c.data ≠ 0) :
    MemoryChunk.asSlice elemSize c = some ⟨c.data, c.size⟩
    ∧ MemoryChunk.asSliceMut elemSize c = some ⟨c.data, c.size⟩
    ∧ (∀ s, MemoryChunk.asSlice elemSize c = some s →
        s.len = c.size ∧ s.byteSpan elemSize = c.size * elemSize)
    ∧ (c.data % elemAlign = 0 →
        MemoryChunk.asSliceChecked elemSize elemAlign c = some ⟨c.data, c.size⟩)
    ∧ (0 < c.size → (Slice.byteSpan elemSize ⟨c.data, c.size⟩ = c.size ↔ elemSize = 1)) := by
  refine ⟨?_, ?_, ?_, ?_, ?_⟩
  · simp [MemoryChunk.asSlice, hnull]
  · simp [MemoryChunk.asSliceMut, hnull]
  · intro s hs
    simp only [MemoryChunk.asSlice, if_neg hnull, Option.some.injEq] at hs
    subst hs
    exact ⟨rfl, rfl⟩
  · intro halign
    simp [MemoryChunk.asSliceChecked, halign, hnull]
  · intro hsize
    have hrw : Slice.byteSpan elemSize ⟨c.data, c.size⟩ = c.size * elemSize := rfl
    rw [hrw]
    constructor
    · intro hspan
      have hspan2 : c.size * elemSize = c.size * 1 := by rw [Nat.mul_one]; exact hspan
      exact Nat.eq_of_mul_eq_mul_left hsize hspan2
    · intro h1
      rw [h1, Nat.mul_one]

/-- Witness for C10: a chunk of 64 bytes at address 4096, viewed as `usize`
elements (size 8, alignment 8), gives a slice of length 64 whose byte span
does not coincide with the 64-byte chunk. -/
theorem C10_chunk_slice_length_witness :
    MemoryChunk.asSlice 8 ⟨4096, 64⟩ = some ⟨4096, 64⟩
    ∧ (Slice.byteSpan 8 ⟨4096, 64⟩ = 64 ↔ (8 : Nat) = 1) :=
  ⟨(C10_chunk_slice_length ⟨4096, 64⟩ 8 8 (by decide)).1,
   (C10_chunk_slice_length ⟨4096, 64⟩ 8 8 (by decide)).2.2.2.2 (by decide)⟩

end MemoryManager
